import Mathlib

/-!
# Verification of the vigil-echo trend-analysis core

Shallow embedding of the repository's metric-extraction, statistics and
trend-analysis code (src/stats.rs, src/parser.rs, src/signals.rs,
src/analyze.rs, src/state.rs), together with theorems settling the frozen
claims about it.

Modelling conventions:
* Rust `f64` values are modelled as exact rationals (`ℚ`); every floating
  point operation used by the code (addition, subtraction, multiplication,
  division, comparison, absolute value) is modelled by the corresponding
  exact field operation.  Counterexamples below use only dyadic rationals
  on which the `f64` computations of the source are themselves exact.
* Rust `Option<f64>` becomes `Option ℚ`; `usize` becomes `ℕ`.
* A Rust panic (integer division by zero) is modelled by returning `none`.
* Text handling is modelled for the ASCII fragment: `char::to_lowercase`,
  `is_alphanumeric` and byte lengths agree with their Lean counterparts on
  ASCII input, and `str::lines` is modelled for `\n`-separated text
  (carriage returns are not modelled).
-/

set_option allowUnsafeReducibility true in
attribute [semireducible] Rat.add Rat.mul Rat.div Rat.inv Rat.sub Rat.neg

namespace VigilEcho

/-! ## Series statistics (src/stats.rs) -/

/-- `f64::EPSILON` = 2⁻⁵². -/
def eps : ℚ := 1 / 2 ^ 52

/-- `stats::mean`: arithmetic mean, `None` for an empty slice. -/
def statsMean (values : List ℚ) : Option ℚ :=
  if values = [] then none else some (values.sum / values.length)

/-- `stats::percentile_rank`: `(below + 0.5·equal) / n · 100`, where `equal`
uses the `(v - value).abs() < f64::EPSILON` test; `50.0` for an empty slice. -/
def percentile_rank (value : ℚ) (values : List ℚ) : ℚ :=
  if values = [] then 50
  else
    let below := values.countP (fun v => decide (v < value))
    let equal := values.countP (fun v => decide (|v - value| < eps))
    ((below : ℚ) + (equal : ℚ) * (1 / 2)) / (values.length : ℚ) * 100

/-- The eight block glyphs of `stats::BLOCKS`. -/
def blocks : List Char := ['▁', '▂', '▃', '▄', '▅', '▆', '▇', '█']

/-- Minimum of a list; the source folds `f64::min` starting from `+∞`, which
on a non-empty list equals folding from the head (the empty case is
unreachable at every use). -/
def foldMin : List ℚ → ℚ
  | [] => 0
  | x :: xs => xs.foldl min x

/-- Maximum of a list; source folds `f64::max` from `-∞`, same remark. -/
def foldMax : List ℚ → ℚ
  | [] => 0
  | x :: xs => xs.foldl max x

/-- Rendering step shared by both branches of `sparkline`: quantize each
value of `sampled` into one of the 8 block levels.  `(x).round() as usize`
is modelled by `Int.toNat (round x)`; the argument is in `[0, 7]`, where
`f64::round` (half away from zero) and Mathlib's `round` (half up) agree. -/
def renderSpark (sampled : List ℚ) : List Char :=
  let mn := foldMin sampled
  let mx := foldMax sampled
  let range := mx - mn
  sampled.map (fun v =>
    if range = 0 then blocks.getD 3 ' '
    else blocks.getD (min (Int.toNat (round ((v - mn) / range * 7))) 7) ' ')

/-- `stats::sparkline`.  The result is the list of characters of the returned
`String`.  When `values.len() > width` the source computes
`i * (values.len() - 1) / (width - 1)`; for `width = 1` that divides by zero
and panics, modelled here as `none`. -/
def sparkline (values : List ℚ) (width : ℕ) : Option (List Char) :=
  if values = [] ∨ width = 0 then some []
  else if width < values.length then
    if width = 1 then none
    else
      some (renderSpark ((List.range width).map (fun i =>
        values.getD (i * (values.length - 1) / (width - 1)) 0)))
  else some (renderSpark values)

/-! ## Markdown parsing helpers (src/parser.rs)

All text processing is carried out on `List Char`, with structural
recursion throughout so that every definition evaluates inside the kernel;
the `String`-typed entry points convert at the boundary. -/

/-- Split a character list at every character satisfying `p`, keeping empty
pieces — the behaviour of Rust's `str::split` with a char predicate. -/
def splitOnPred (p : Char → Bool) : List Char → List (List Char)
  | [] => [[]]
  | c :: rest =>
    match splitOnPred p rest with
    | [] => [[]]
    | w :: ws => if p c then [] :: w :: ws else (c :: w) :: ws

/-- `str::lines` for `\n`-separated text: split on `\n`, with no trailing
empty line for text ending in `\n`, and no line at all for `""`
(carriage returns are not modelled). -/
def linesL (s : List Char) : List (List Char) :=
  let parts := splitOnPred (fun c => c == '\n') s
  match parts.getLast? with
  | some [] => parts.dropLast
  | _ => parts

/-- ASCII lowercasing; models both `str::to_lowercase` and
`eq_ignore_ascii_case` (via equality of images) on ASCII text. -/
def lowerL (l : List Char) : List Char :=
  l.map Char.toLower

/-- `str::contains` for a literal substring needle. -/
def containsL (haystack needle : List Char) : Bool :=
  needle.isPrefixOf haystack ||
    match haystack with
    | [] => false
    | _ :: t => containsL t needle

/-- `str::trim`: strip whitespace from both ends. -/
def trimL (l : List Char) : List Char :=
  ((l.dropWhile Char.isWhitespace).reverse.dropWhile Char.isWhitespace).reverse

/-- One fuel-indexed pass of `str::trim_start_matches`; the fuel is an upper
bound on the number of strips (each strip removes at least one character),
so `trimStartL` below is the exact repeated-strip semantics. -/
def trimStartGo (pat : List Char) : ℕ → List Char → List Char
  | 0, s => s
  | n + 1, s =>
    if pat ≠ [] ∧ pat.isPrefixOf s then trimStartGo pat n (s.drop pat.length)
    else s

/-- `str::trim_start_matches`: repeatedly strip `pat` from the front. -/
def trimStartL (pat s : List Char) : List Char :=
  trimStartGo pat s.length s

/-- The `## ` prefix marking a section heading. -/
def h2Marker : List Char := ['#', '#', ' ']

/-- The `### ` prefix marking a sub-entry. -/
def h3Marker : List Char := ['#', '#', '#', ' ']

/-- The heading text of a `## ` line: `line.trim_start_matches("## ").trim()`. -/
def headingOfL (line : List Char) : List Char :=
  trimL (trimStartL h2Marker line)

/-- The section matcher of `parser::count_h3_under_section`:
`heading.eq_ignore_ascii_case(section_name) ||
 heading.to_lowercase().contains(&section_name.to_lowercase())`. -/
def sectionMatchesL (heading sectionName : List Char) : Bool :=
  (lowerL heading == lowerL sectionName) ||
    containsL (lowerL heading) (lowerL sectionName)

/-- `parser::count_h3_under_section` on character lists. -/
def countH3L (content sectionName : List Char) : ℕ :=
  ((linesL content).foldl
    (fun (st : Bool × ℕ) line =>
      if h2Marker.isPrefixOf line then
        (sectionMatchesL (headingOfL line) sectionName, st.2)
      else if st.1 && h3Marker.isPrefixOf line then (st.1, st.2 + 1)
      else st)
    (false, 0)).2

/-- `parser::count_h3_under_section`: count `### ` lines whose most recent
`## ` heading matches `sectionName`. -/
def count_h3_under_section (content sectionName : String) : ℕ :=
  countH3L content.toList sectionName.toList

/-- The apostrophe character (kept inside tokens by the tokenizer). -/
def apostrophe : Char := Char.ofNat 39

/-- `parser::tokenize`: split on non-alphanumeric, non-apostrophe characters,
keep pieces of length `> 1`, lowercase them.  (`is_alphanumeric` and byte
length are modelled for ASCII text.) -/
def tokenizeL (text : List Char) : List (List Char) :=
  ((splitOnPred (fun c => !(c.isAlphanum || c == apostrophe)) text).filter
    (fun w => !w.isEmpty && decide (1 < w.length))).map lowerL

/-- `parser::type_token_ratio`: distinct tokens over total tokens, `None`
when there are no tokens.  The `HashSet` cardinality is
`List.dedup.length`. -/
def distinctTokenFraction (text : List Char) : Option ℚ :=
  let tokens := tokenizeL text
  if tokens = [] then none
  else some ((tokens.dedup.length : ℚ) / (tokens.length : ℚ))

/-- The section test shared by `parser::extract_section_text` and
`parser::extract_entries`:
`section_names.iter().any(|s| heading.contains(&s.to_lowercase()))` on the
lowercased heading. -/
def anySectionL (line : List Char) (sectionNames : List (List Char)) : Bool :=
  sectionNames.any (fun s => containsL (lowerL (headingOfL line)) (lowerL s))

/-- `parser::extract_section_text`: concatenate the non-`### `, non-blank
lines lying under any of the wanted `## ` sections, each followed by a
space. -/
def extractSectionTextL (content : List Char) (sectionNames : List (List Char)) :
    List Char :=
  ((linesL content).foldl
    (fun (st : Bool × List Char) line =>
      if h2Marker.isPrefixOf line then
        (anySectionL line sectionNames, st.2)
      else if st.1 && !h3Marker.isPrefixOf line && !(trimL line == []) then
        (st.1, st.2 ++ line ++ [' '])
      else st)
    (false, [])).2

/-- Fold state of `parser::extract_entries`. -/
structure EntriesState where
  inSection : Bool
  title : Option (List Char)
  body : List Char
  entries : List (List Char × List Char)

/-- `parser::extract_entries`: the `### ` entries (title, accumulated body)
under the wanted `## ` sections. -/
def extractEntriesL (content : List Char) (sectionNames : List (List Char)) :
    List (List Char × List Char) :=
  let fin := (linesL content).foldl
    (fun (st : EntriesState) line =>
      if h2Marker.isPrefixOf line then
        let entries := match st.title with
          | some t => st.entries ++ [(t, st.body)]
          | none => st.entries
        { inSection := anySectionL line sectionNames,
          title := none, body := [], entries := entries }
      else if st.inSection && h3Marker.isPrefixOf line then
        let entries := match st.title with
          | some t => st.entries ++ [(t, st.body)]
          | none => st.entries
        { inSection := st.inSection,
          title := some (trimL (trimStartL h3Marker line)),
          body := [], entries := entries }
      else if st.title.isSome && st.inSection && !(trimL line == []) then
        { st with body := st.body ++ line ++ [' '] }
      else st)
    ⟨false, none, [], []⟩
  match fin.title with
  | some t => fin.entries ++ [(t, fin.body)]
  | none => fin.entries

/-! ## Signal extractors (src/signals.rs) -/

/-- Ten-character window test of `signals::has_date_pattern`: the collected
`String` has byte length 10 (hence all ten chars are ASCII), positions 4 and
7 are `-`, and positions 0–3, 5–6, 8–9 are ASCII digits. -/
def dateWindowOk : List Char → Bool
  | c0 :: c1 :: c2 :: c3 :: c4 :: c5 :: c6 :: c7 :: c8 :: c9 :: _ =>
    (c0.utf8Size + c1.utf8Size + c2.utf8Size + c3.utf8Size + c4.utf8Size +
      c5.utf8Size + c6.utf8Size + c7.utf8Size + c8.utf8Size + c9.utf8Size == 10) &&
    (c4 == '-') && (c7 == '-') &&
    c0.isDigit && c1.isDigit && c2.isDigit && c3.isDigit &&
    c5.isDigit && c6.isDigit && c8.isDigit && c9.isDigit
  | _ => false

/-- Scan of `signals::has_date_pattern`: some position starts with an ASCII
digit and a valid `YYYY-MM-DD` ten-character window. -/
def hasDateAux : List Char → Bool
  | [] => false
  | c :: rest => (c.isDigit && dateWindowOk (c :: rest)) || hasDateAux rest

/-- `signals::has_date_pattern`. -/
def has_date_pattern (text : String) : Bool :=
  hasDateAux text.toList

/-- Attribution phrases of `signals::has_evidence`. -/
def attributionPhrases : List String :=
  ["d said", "d asked", "d mentioned", "d told", "d pointed", "d called",
   "d suggested"]

/-- Research phrases of `signals::has_evidence`. -/
def researchPhrases : List String :=
  ["paper", "research", "found that", "according to", "study", "framework",
   "mazancieux", "reflexion", "lindsey", "foucault", "aristotle"]

/-- Event phrases of `signals::has_evidence`. -/
def eventPhrases : List String :=
  ["session", "conversation", "call with", "during the", "yesterday",
   "this morning", "last night"]

/-- `signals::has_evidence`: a date pattern, or any phrase of the three lists
as a substring of the lowercased text. -/
def hasEvidenceL (text : List Char) : Bool :=
  let lower := lowerL text
  hasDateAux text ||
  attributionPhrases.any (fun a => containsL lower a.toList) ||
  researchPhrases.any (fun r => containsL lower r.toList) ||
  eventPhrases.any (fun e => containsL lower e.toList)

/-- The reflective-section names shared by `signals::vocabulary_diversity`
and `signals::evidence_grounding`. -/
def reflectiveSections : List (List Char) :=
  ["observations".toList, "patterns".toList, "lessons".toList]

/-- `signals::vocabulary_diversity`. -/
def vocabulary_diversity (reflectionsContent : String) : Option ℚ :=
  if reflectionsContent = "" then none
  else
    distinctTokenFraction
      (extractSectionTextL reflectionsContent.toList reflectiveSections)

/-- `signals::question_generation`. -/
def question_generation (curiosityContent : String) : Option ℚ :=
  if curiosityContent = "" then none
  else
    let openCount := count_h3_under_section curiosityContent "Open Questions"
    let count := if 0 < openCount then openCount
      else count_h3_under_section curiosityContent "Open"
    some (count : ℚ)

/-- `signals::thought_lifecycle`. -/
def thought_lifecycle (thoughtsContent : String) : Option ℚ :=
  if thoughtsContent = "" then none
  else
    let active := count_h3_under_section thoughtsContent "Active"
    let graduated := count_h3_under_section thoughtsContent "Graduated"
    let dissolved := count_h3_under_section thoughtsContent "Dissolved"
    let total := active + graduated + dissolved
    if total = 0 then none
    else some (((graduated + dissolved : ℕ) : ℚ) / ((total : ℕ) : ℚ))

/-- `signals::evidence_grounding`. -/
def evidence_grounding (reflectionsContent : String) : Option ℚ :=
  if reflectionsContent = "" then none
  else
    let entries := extractEntriesL reflectionsContent.toList reflectiveSections
    if entries = [] then none
    else
      some (((entries.countP (fun e => hasEvidenceL e.2)) : ℚ) / (entries.length : ℚ))

/-! ## Data model (src/state.rs) -/

/-- `state::Signals`: the four optional signal values. -/
structure Signals where
  vocabulary_diversity : Option ℚ
  question_generation : Option ℚ
  thought_lifecycle : Option ℚ
  evidence_grounding : Option ℚ
deriving DecidableEq

/-- `state::SignalVector`: one snapshot. -/
structure SignalVector where
  timestamp : String
  trigger : String
  signals : Signals
  document_hashes : List (String × String)
deriving DecidableEq

/-- `state::Trend`. -/
inductive Trend where
  | Improving
  | Stable
  | Declining
deriving DecidableEq

/-- `state::SignalTrend`. -/
structure SignalTrend where
  current : Option ℚ
  trend : Trend
  delta : ℚ
deriving DecidableEq

/-- `state::AlertLevel`. -/
inductive AlertLevel where
  | Healthy
  | Watch
  | Concern
  | Alert
deriving DecidableEq

/-- `state::ThresholdPair`. -/
structure ThresholdPair where
  decline : ℚ
  improve : ℚ
deriving DecidableEq

/-- `state::Config`.  The threshold `HashMap` is modelled as an association
list with unique keys. -/
structure Config where
  thresholds : List (String × ThresholdPair)
  window_size : ℕ
  max_history : ℕ
  alert_after_sessions : ℕ
  cooldown_seconds : ℕ

/-- `state::Config::default()`. -/
def defaultConfig : Config where
  thresholds :=
    [("vocabulary_diversity", ⟨-(1/20), 1/20⟩),
     ("evidence_grounding", ⟨-(1/10), 1/10⟩),
     ("question_generation", ⟨-1, 1⟩),
     ("thought_lifecycle", ⟨-(1/10), 1/10⟩)]
  window_size := 10
  max_history := 50
  alert_after_sessions := 7
  cooldown_seconds := 60

/-- `state::Analysis`.  The signal map is modelled as an association list
with unique keys (the four signal names). -/
structure Analysis where
  timestamp : String
  alert_level : AlertLevel
  signals : List (String × SignalTrend)
  improving_count : ℕ
  stable_count : ℕ
  declining_count : ℕ
  highlight : Option String
  watch_messages : List String
  data_points : ℕ

/-! ## Trend analyzer (src/analyze.rs) -/

/-- `analyze::SIGNAL_NAMES`. -/
def signalNames : List String :=
  ["vocabulary_diversity", "question_generation", "thought_lifecycle",
   "evidence_grounding"]

/-- `analyze::get_signal`. -/
def getSignal (sv : SignalVector) (name : String) : Option ℚ :=
  if name = "vocabulary_diversity" then sv.signals.vocabulary_diversity
  else if name = "question_generation" then sv.signals.question_generation
  else if name = "thought_lifecycle" then sv.signals.thought_lifecycle
  else if name = "evidence_grounding" then sv.signals.evidence_grounding
  else none

/-- `analyze::mean`: mean of the present values, `None` if all are absent. -/
def meanOpt (values : List (Option ℚ)) : Option ℚ :=
  let valid := values.filterMap id
  if valid = [] then none else some (valid.sum / valid.length)

/-- `HashMap` lookup on the association-list model. -/
def lookupAssoc {α : Type} : List (String × α) → String → Option α
  | [], _ => none
  | (k', v) :: rest, k => if k' = k then some v else lookupAssoc rest k

/-- `HashMap::insert` on the association-list model: replace the binding if
the key is present, append otherwise. -/
def insertAssoc {α : Type} (k : String) (v : α) :
    List (String × α) → List (String × α)
  | [] => [(k, v)]
  | (k', v') :: rest =>
    if k' = k then (k, v) :: rest else (k', v') :: insertAssoc k v rest

/-- Zero-pad a digit string on the left to width `w`. -/
def padZeros (s : String) (w : ℕ) : String :=
  if s.length < w then String.mk (List.replicate (w - s.length) '0') ++ s else s

/-- Fixed-point rendering of a rational with `decimals` fraction digits,
modelling Rust's `{:.N}` float formatting (the rounding of a tie differs
from binary-float formatting in ways no claim depends on). -/
def fmtFixed (q : ℚ) (decimals : ℕ) : String :=
  let scaled : ℤ := round (q * (10 : ℚ) ^ decimals)
  let sign := if scaled < 0 then "-" else ""
  let a := scaled.natAbs
  if decimals = 0 then sign ++ toString a
  else sign ++ toString (a / 10 ^ decimals) ++ "." ++
    padZeros (toString (a % 10 ^ decimals)) decimals

/-- `{:+.N}` formatting: an explicit plus sign on non-negative values. -/
def fmtPlus (q : ℚ) (decimals : ℕ) : String :=
  if q < 0 then fmtFixed q decimals else "+" ++ fmtFixed q decimals

/-- `analyze::decline_message`. -/
def decline_message (name : String) (current : Option ℚ) (delta : ℚ) : String :=
  let val := match current with
    | some v => fmtFixed v 2
    | none => "?"
  if name = "vocabulary_diversity" then
    "vocabulary_diversity at " ++ val ++ " (" ++ fmtPlus delta 2 ++
      ") — reflections reusing the same words"
  else if name = "question_generation" then
    "question_generation at " ++ val ++ " (" ++ fmtPlus delta 0 ++
      ") — fewer new questions being asked"
  else if name = "thought_lifecycle" then
    "thought_lifecycle at " ++ val ++ " (" ++ fmtPlus delta 2 ++
      ") — thoughts accumulating without resolution"
  else if name = "evidence_grounding" then
    "evidence_grounding at " ++ val ++ " (" ++ fmtPlus delta 2 ++
      ") — conclusions drifting from concrete inputs"
  else name ++ " at " ++ val ++ " (" ++ fmtPlus delta 2 ++ ")"

/-- `analyze::friendly_name`. -/
def friendly_name (name : String) : String :=
  if name = "vocabulary_diversity" then "vocabulary diversity"
  else if name = "question_generation" then "question generation"
  else if name = "thought_lifecycle" then "thought lifecycle"
  else if name = "evidence_grounding" then "evidence grounding"
  else name

/-- The trend classification match of `analyze::run` (lines 76–95): from the
recent and baseline means, the `(trend, delta)` pair, using the configured
threshold pair with the inline `(-0.05, 0.05)` fallback. -/
def trendDelta (config : Config) (name : String)
    (recentMean baselineMean : Option ℚ) : Trend × ℚ :=
  match recentMean, baselineMean with
  | some r, some b =>
    let d := r - b
    let threshold := (lookupAssoc config.thresholds name).getD ⟨-(1/20), 1/20⟩
    if d < threshold.decline then (.Declining, d)
    else if threshold.improve < d then (.Improving, d)
    else (.Stable, d)
  | _, _ => (.Stable, 0)

/-- Mutable loop state of `analyze::run`. -/
structure AnState where
  trends : List (String × SignalTrend)
  improving : ℕ
  stable : ℕ
  declining : ℕ
  watch : List String
  best_delta : Option (String × ℚ)

/-- The per-trend tally of `analyze::run` (lines 97–110): bump the matching
counter, track the best improving delta
(`best_delta.as_ref().is_none_or(|(_, bd)| delta > *bd)`), and push the
watch message of a declining signal. -/
def applyTrend (st : AnState) (name : String) (current : Option ℚ)
    (td : Trend × ℚ) : AnState :=
  match td.1 with
  | .Improving =>
    { st with
      improving := st.improving + 1,
      best_delta :=
        if (match st.best_delta with
            | none => true
            | some p => decide (p.2 < td.2)) then some (name, td.2)
        else st.best_delta }
  | .Declining =>
    { st with
      declining := st.declining + 1,
      watch := st.watch ++ [decline_message name current td.2] }
  | .Stable => { st with stable := st.stable + 1 }

/-- One iteration of the per-signal loop of `analyze::run` (lines 44–120). -/
def stepSignal (data : List SignalVector) (config : Config)
    (st : AnState) (name : String) : AnState :=
  let values := data.map (fun sv => getSignal sv name)
  if values.length < 3 then
    match values.getLast?.bind id with
    | some current =>
      { st with
        trends := insertAssoc name ⟨some current, .Stable, 0⟩ st.trends,
        stable := st.stable + 1 }
    | none => st
  else
    let recentStart := values.length - 3
    let recentMean := meanOpt (values.drop recentStart)
    let baseline := values.take recentStart
    let baselineMean := if baseline = [] then recentMean else meanOpt baseline
    let current := values.getLast?.bind id
    let td := trendDelta config name recentMean baselineMean
    let st' := applyTrend st name current td
    { st' with trends := insertAssoc name ⟨current, td.1, td.2⟩ st'.trends }

/-- The whole per-signal loop of `analyze::run`. -/
def processSignals (data : List SignalVector) (config : Config) : AnState :=
  signalNames.foldl (stepSignal data config) ⟨[], 0, 0, 0, [], none⟩

/-- The trailing analysis window of `analyze::run` (lines 34–35). -/
def windowData (history : List SignalVector) (config : Config) :
    List SignalVector :=
  history.drop (history.length - min config.window_size history.length)

/-- Base alert level of `analyze::run` (lines 123–129). -/
def baseAlertLevel (declining : ℕ) : AlertLevel :=
  if 3 ≤ declining then .Concern
  else if 1 ≤ declining then .Watch
  else .Healthy

/-- The sustained-decline check of `analyze::run` (lines 136–146). -/
def sustainedDecline (history : List SignalVector) (config : Config) : Bool :=
  let lookback := min config.alert_after_sessions history.length
  let oldData := history.drop (history.length - lookback)
  signalNames.any (fun name =>
    let vals := oldData.map (fun sv => getSignal sv name)
    if vals.length < 4 then false
    else
      match meanOpt (vals.take (vals.length / 2)),
            meanOpt (vals.drop (vals.length / 2)) with
      | some f, some s => decide (s < f - 1 / 10)
      | _, _ => false)

/-- Final alert level of `analyze::run` (lines 122–154): escalate `Concern`
to `Alert` when the history is long enough and the sustained-decline check
fires. -/
def finalAlertLevel (declining : ℕ) (history : List SignalVector)
    (config : Config) : AlertLevel :=
  let base := baseAlertLevel declining
  if base = .Concern ∧ config.alert_after_sessions ≤ history.length then
    if sustainedDecline history config then .Alert else .Concern
  else base

/-- `analyze::run`.  `nowIso` models the `state::now_iso()` clock read, which
is injected so the function stays pure. -/
def run (history : List SignalVector) (config : Config) (nowIso : String) :
    Analysis :=
  let data := windowData history config
  let st := processSignals data config
  { timestamp := nowIso
    alert_level := finalAlertLevel st.declining history config
    signals := st.trends
    improving_count := st.improving
    stable_count := st.stable
    declining_count := st.declining
    highlight := st.best_delta.map (fun p =>
      friendly_name p.1 ++ " trending up (+" ++ fmtFixed p.2 2 ++ ")")
    watch_messages := st.watch
    data_points := history.length }

/-! ## Derived views of the analyzer, used to state the claims -/

/-- The entry that the loop iteration of `analyze::run` stores in the signal
map for `name` (`none` when it stores nothing): the branch structure of
`stepSignal` restricted to its effect on the map. -/
def signalEntry (data : List SignalVector) (config : Config) (name : String) :
    Option SignalTrend :=
  let values := data.map (fun sv => getSignal sv name)
  if values.length < 3 then
    match values.getLast?.bind id with
    | some current => some ⟨some current, .Stable, 0⟩
    | none => none
  else
    let recentStart := values.length - 3
    let recentMean := meanOpt (values.drop recentStart)
    let baseline := values.take recentStart
    let baselineMean := if baseline = [] then recentMean else meanOpt baseline
    let td := trendDelta config name recentMean baselineMean
    some ⟨values.getLast?.bind id, td.1, td.2⟩

/-- `values.last().and_then(|v| *v)`: the current value of a signal in a
window. -/
def currentValue (data : List SignalVector) (name : String) : Option ℚ :=
  (data.map (fun sv => getSignal sv name)).getLast?.bind id

/-- The threshold pair `analyze::run` uses for a signal: the configured one,
or the inline `(-0.05, 0.05)` fallback. -/
def effThreshold (config : Config) (name : String) : ThresholdPair :=
  (lookupAssoc config.thresholds name).getD ⟨-(1/20), 1/20⟩

/-- The sustained-decline condition of the code, as a proposition: some
signal's trailing-window slot sequence has length at least 4 and its two
slot halves both have a present mean, with the second more than 0.1 below
the first. -/
def sustainedPropOver (history : List SignalVector) (config : Config) : Prop :=
  ∃ name ∈ signalNames,
    let vals := (history.drop
      (history.length - min config.alert_after_sessions history.length)).map
      (fun sv => getSignal sv name)
    4 ≤ vals.length ∧
    ∃ f s, meanOpt (vals.take (vals.length / 2)) = some f ∧
      meanOpt (vals.drop (vals.length / 2)) = some s ∧ s < f - 1 / 10

/-- Modelled from the spec (claim C2's wording): some signal has at least 4
PRESENT values in the trailing `alert_after_sessions` window, and those
present values, split into first and second halves, have means with the
second more than 0.1 below the first. -/
def claimSustainedC2 (history : List SignalVector) (config : Config) : Bool :=
  signalNames.any (fun name =>
    let present := ((history.drop
      (history.length - min config.alert_after_sessions history.length)).map
      (fun sv => getSignal sv name)).filterMap id
    decide (4 ≤ present.length) &&
    match statsMean (present.take (present.length / 2)),
          statsMean (present.drop (present.length / 2)) with
    | some f, some s => decide (s < f - 1 / 10)
    | _, _ => false)

/-- Whether some `## ` line of the document matches a section name under the
matcher of `parser::count_h3_under_section`. -/
def hasSectionHeading (content sectionName : String) : Bool :=
  (linesL content.toList).any (fun line =>
    h2Marker.isPrefixOf line && sectionMatchesL (headingOfL line) sectionName.toList)

/-- Modelled from the spec (claim C8's wording): count sub-entries under the
exact "Open Questions" section, falling back to the looser "Open" match only
when that section is ABSENT from the document. -/
def claimOpenQuestionCount (content : String) : ℕ :=
  if hasSectionHeading content "Open Questions" then
    count_h3_under_section content "Open Questions"
  else count_h3_under_section content "Open"

/-! ## Concrete data used by witnesses and counterexamples -/

/-- A snapshot with the given four optional signal values. -/
def snap (vd qg tl eg : Option ℚ) : SignalVector :=
  ⟨"", "", ⟨vd, qg, tl, eg⟩, []⟩

/-- A snapshot with every signal absent. -/
def blankSnap : SignalVector := snap none none none none

/-- Four snapshots in which three signals decline from 1 to 1/2 with two
absent slots in between; only 2 present values per signal. -/
def histSparse : List SignalVector :=
  [snap (some 1) none (some 1) (some 1), blankSnap, blankSnap,
   snap (some (1/2)) none (some (1/2)) (some (1/2))]

/-- Default configuration with `alert_after_sessions` lowered to 4. -/
def configAA4 : Config := { defaultConfig with alert_after_sessions := 4 }

/-- Four snapshots in which only `vocabulary_diversity` is ever present: in
the first and last slots. -/
def histVdSparse : List SignalVector :=
  [snap (some 1) none none none, blankSnap, blankSnap,
   snap (some (1/2)) none none none]

/-- A configuration whose `vocabulary_diversity` decline threshold is
positive. -/
def configPosDecline : Config :=
  { defaultConfig with thresholds := [("vocabulary_diversity", ⟨1/20, 1/10⟩)] }

/-- Three snapshots with a constant present `vocabulary_diversity`. -/
def histConstVd : List SignalVector :=
  List.replicate 3 (snap (some (1/2)) none none none)

/-- A single snapshot with all four signals present. -/
def histSingle : List SignalVector :=
  [snap (some (7/10)) (some 5) (some (1/2)) (some (3/5))]

/-- A document with an empty "Open Questions" section and a later "Reopened"
section holding one sub-entry. -/
def openQuestionsDoc : String := "## Open Questions\n\n## Reopened\n\n### X\n"

/-- A reflections document with two entries, one carrying evidence. -/
def reflDoc : String :=
  "## Observations\n\n### First\nD said hello on 2026-02-25\n\n### Second\nplain words here\n"

/-- A curiosity document with two open questions. -/
def curDoc : String := "## Open Questions\n\n### A\n\n### B\n"

/-- A thoughts document with one active and one graduated thought. -/
def thoughtsDoc : String := "## Active\n\n### T\n\n## Graduated\n\n### G\n"

/-! ## Association-list lemmas -/

theorem lookupAssoc_insertAssoc_self {α : Type} (k : String) (v : α)
    (l : List (String × α)) : lookupAssoc (insertAssoc k v l) k = some v := by
  induction l with
  | nil => simp [insertAssoc, lookupAssoc]
  | cons p rest ih =>
    obtain ⟨k', v'⟩ := p
    by_cases h : k' = k
    · simp [insertAssoc, h, lookupAssoc]
    · simp [insertAssoc, h, lookupAssoc, ih]

theorem lookupAssoc_insertAssoc_ne {α : Type} {j k : String} (v : α)
    (l : List (String × α)) (hjk : j ≠ k) :
    lookupAssoc (insertAssoc k v l) j = lookupAssoc l j := by
  induction l with
  | nil => simp [insertAssoc, lookupAssoc, Ne.symm hjk]
  | cons p rest ih =>
    obtain ⟨k', v'⟩ := p
    by_cases h : k' = k
    · subst h
      simp [insertAssoc, lookupAssoc, Ne.symm hjk]
    · simp only [insertAssoc, if_neg h, lookupAssoc]
      by_cases h2 : k' = j <;> simp [h2, ih]

theorem length_insertAssoc_of_lookup_none {α : Type} {k : String} (v : α)
    {l : List (String × α)} (h : lookupAssoc l k = none) :
    (insertAssoc k v l).length = l.length + 1 := by
  induction l with
  | nil => simp [insertAssoc]
  | cons p rest ih =>
    obtain ⟨k', v'⟩ := p
    simp only [lookupAssoc] at h
    by_cases hk : k' = k
    · simp [hk] at h
    · simp only [insertAssoc, if_neg hk, List.length_cons]
      rw [ih (by simpa [hk] using h)]

/-! ## Effect of one loop iteration on the analyzer state -/

theorem applyTrend_trends (st : AnState) (name : String) (current : Option ℚ)
    (td : Trend × ℚ) : (applyTrend st name current td).trends = st.trends := by
  rcases td with ⟨t, d⟩
  cases t <;> rfl

theorem applyTrend_counts (st : AnState) (name : String) (current : Option ℚ)
    (td : Trend × ℚ) :
    (applyTrend st name current td).improving + (applyTrend st name current td).stable +
      (applyTrend st name current td).declining =
      st.improving + st.stable + st.declining + 1 := by
  rcases td with ⟨t, d⟩
  cases t <;> simp [applyTrend] <;> omega

theorem stepSignal_trends (data : List SignalVector) (config : Config)
    (st : AnState) (name : String) :
    (stepSignal data config st name).trends =
      match signalEntry data config name with
      | none => st.trends
      | some e => insertAssoc name e st.trends := by
  simp only [stepSignal, signalEntry]
  split
  · split <;> rfl
  · simp [applyTrend_trends]

theorem stepSignal_counts (data : List SignalVector) (config : Config)
    (st : AnState) (name : String) :
    (stepSignal data config st name).improving + (stepSignal data config st name).stable +
      (stepSignal data config st name).declining =
      st.improving + st.stable + st.declining +
        (if (signalEntry data config name).isSome then 1 else 0) := by
  simp only [stepSignal, signalEntry]
  split
  · split <;> · simp; try omega
  · simp [applyTrend_counts]

theorem stepSignal_lookup_ne (data : List SignalVector) (config : Config)
    (st : AnState) {j name : String} (hjn : j ≠ name) :
    lookupAssoc (stepSignal data config st name).trends j =
      lookupAssoc st.trends j := by
  rw [stepSignal_trends]
  cases signalEntry data config name with
  | none => rfl
  | some e => exact lookupAssoc_insertAssoc_ne e st.trends hjn

theorem stepSignal_lookup_self (data : List SignalVector) (config : Config)
    (st : AnState) (name : String) :
    lookupAssoc (stepSignal data config st name).trends name =
      match signalEntry data config name with
      | none => lookupAssoc st.trends name
      | some e => some e := by
  rw [stepSignal_trends]
  cases signalEntry data config name with
  | none => rfl
  | some e => exact lookupAssoc_insertAssoc_self name e st.trends

/-! ## Effect of the whole loop on the signal map -/

theorem lookup_foldl_not_mem (data : List SignalVector) (config : Config)
    (names : List String) (st : AnState) (name : String) (h : name ∉ names) :
    lookupAssoc (names.foldl (stepSignal data config) st).trends name =
      lookupAssoc st.trends name := by
  induction names generalizing st with
  | nil => rfl
  | cons a tl ih =>
    simp only [List.foldl_cons]
    rw [ih _ (fun hm => h (List.mem_cons_of_mem a hm))]
    exact stepSignal_lookup_ne data config st (fun he => h (by simp [he]))

theorem lookup_foldl_mem (data : List SignalVector) (config : Config)
    (names : List String) (st : AnState) (name : String)
    (hmem : name ∈ names) (hnd : names.Nodup) :
    lookupAssoc (names.foldl (stepSignal data config) st).trends name =
      match signalEntry data config name with
      | none => lookupAssoc st.trends name
      | some e => some e := by
  induction names generalizing st with
  | nil => cases hmem
  | cons a tl ih =>
    simp only [List.foldl_cons]
    rcases List.mem_cons.mp hmem with rfl | htl
    · have hnotin : name ∉ tl := (List.nodup_cons.mp hnd).1
      rw [lookup_foldl_not_mem data config tl _ name hnotin,
        stepSignal_lookup_self]
    · have hnd' := (List.nodup_cons.mp hnd).2
      have hne : name ≠ a := fun he => (List.nodup_cons.mp hnd).1 (he ▸ htl)
      rw [ih _ htl hnd']
      cases signalEntry data config name with
      | none => simp [stepSignal_lookup_ne data config st hne]
      | some e => rfl

theorem lookupAssoc_run (history : List SignalVector) (config : Config)
    (nowIso name : String) (hmem : name ∈ signalNames) :
    lookupAssoc (run history config nowIso).signals name =
      signalEntry (windowData history config) config name := by
  have h0 : (run history config nowIso).signals =
      (processSignals (windowData history config) config).trends := rfl
  rw [h0, processSignals,
    lookup_foldl_mem _ _ _ _ _ hmem (by decide)]
  cases signalEntry (windowData history config) config name <;> rfl

theorem counts_foldl (data : List SignalVector) (config : Config)
    (names : List String) (st : AnState) (hnd : names.Nodup)
    (hfresh : ∀ k ∈ names, lookupAssoc st.trends k = none)
    (hsum : st.improving + st.stable + st.declining = st.trends.length) :
    (names.foldl (stepSignal data config) st).improving +
      (names.foldl (stepSignal data config) st).stable +
      (names.foldl (stepSignal data config) st).declining =
      (names.foldl (stepSignal data config) st).trends.length := by
  induction names generalizing st with
  | nil => simpa using hsum
  | cons a tl ih =>
    simp only [List.foldl_cons]
    apply ih _ (List.nodup_cons.mp hnd).2
    · intro k hk
      have hka : k ≠ a := fun he => (List.nodup_cons.mp hnd).1 (he ▸ hk)
      rw [stepSignal_lookup_ne data config st hka]
      exact hfresh k (List.mem_cons_of_mem a hk)
    · rw [stepSignal_counts, stepSignal_trends]
      cases he : signalEntry data config a with
      | none => simpa using hsum
      | some e =>
        simp only [Option.isSome_some, if_pos]
        rw [length_insertAssoc_of_lookup_none e (hfresh a (List.mem_cons_self a tl))]
        omega

/-! ## Alert-level characterization -/

theorem finalAlertLevel_iff (d : ℕ) (history : List SignalVector) (config : Config) :
    (finalAlertLevel d history config = .Concern ↔
      3 ≤ d ∧ ¬(config.alert_after_sessions ≤ history.length ∧
        sustainedDecline history config = true)) ∧
    (finalAlertLevel d history config = .Alert ↔
      3 ≤ d ∧ config.alert_after_sessions ≤ history.length ∧
        sustainedDecline history config = true) ∧
    (finalAlertLevel d history config = .Watch ↔ 1 ≤ d ∧ d < 3) ∧
    (finalAlertLevel d history config = .Healthy ↔ d = 0) := by
  unfold finalAlertLevel baseAlertLevel
  by_cases h3 : 3 ≤ d
  · by_cases hA : config.alert_after_sessions ≤ history.length
    · by_cases hS : sustainedDecline history config = true
      · refine ⟨?_, ?_, ?_, ?_⟩ <;> · simp [h3, hA, hS]; try omega
      · refine ⟨?_, ?_, ?_, ?_⟩ <;> · simp [h3, hA, hS]; try omega
    · refine ⟨?_, ?_, ?_, ?_⟩ <;> · simp [h3, hA]; try omega
  · by_cases h1 : 1 ≤ d
    · refine ⟨?_, ?_, ?_, ?_⟩ <;> · simp [h3, h1]; try omega
    · refine ⟨?_, ?_, ?_, ?_⟩ <;> · simp [h3, h1]; try omega

theorem sustainedDecline_iff (history : List SignalVector) (config : Config) :
    sustainedDecline history config = true ↔ sustainedPropOver history config := by
  unfold sustainedDecline sustainedPropOver
  simp only [List.any_eq_true]
  refine exists_congr fun name => and_congr_right fun _ => ?_
  by_cases h4 : ((history.drop
      (history.length - min config.alert_after_sessions history.length)).map
      (fun sv => getSignal sv name)).length < 4
  · simp only [h4, if_pos]
    constructor
    · intro h; cases h
    · rintro ⟨hc, -⟩; omega
  · simp only [h4, if_neg]
    cases hf : meanOpt (((history.drop
        (history.length - min config.alert_after_sessions history.length)).map
        (fun sv => getSignal sv name)).take (((history.drop
        (history.length - min config.alert_after_sessions history.length)).map
        (fun sv => getSignal sv name)).length / 2)) with
    | none => simp [hf]
    | some f =>
      cases hs : meanOpt (((history.drop
          (history.length - min config.alert_after_sessions history.length)).map
          (fun sv => getSignal sv name)).drop (((history.drop
          (history.length - min config.alert_after_sessions history.length)).map
          (fun sv => getSignal sv name)).length / 2)) with
      | none => simp [hf, hs]
      | some s =>
        constructor
        · intro hlt
          exact ⟨by omega, f, s, rfl, rfl, of_decide_eq_true hlt⟩
        · rintro ⟨-, f', s', hf', hs', hlt⟩
          injection hf' with h1
          injection hs' with h2
          subst h1
          subst h2
          exact decide_eq_true hlt

/-- C1: the alert level of an analysis run is `Concern` iff the declining
signal count is at least 3 and the sustained-decline check either fails or
is not evaluated (history shorter than `alert_after_sessions`); it is
`Alert` iff the declining count is at least 3, the history is long enough,
and the sustained-decline condition over the trailing window holds; it is
`Watch` iff the declining count is in `[1, 3)`; and it is `Healthy` iff the
declining count is 0. -/
theorem alert_level_characterization (history : List SignalVector)
    (config : Config) (nowIso : String) :
    ((run history config nowIso).alert_level = .Concern ↔
      3 ≤ (run history config nowIso).declining_count ∧
        ¬(config.alert_after_sessions ≤ history.length ∧
          sustainedDecline history config = true)) ∧
    ((run history config nowIso).alert_level = .Alert ↔
      3 ≤ (run history config nowIso).declining_count ∧
        config.alert_after_sessions ≤ history.length ∧
        sustainedDecline history config = true) ∧
    ((run history config nowIso).alert_level = .Watch ↔
      1 ≤ (run history config nowIso).declining_count ∧
        (run history config nowIso).declining_count < 3) ∧
    ((run history config nowIso).alert_level = .Healthy ↔
      (run history config nowIso).declining_count = 0) :=
  finalAlertLevel_iff
    ((processSignals (windowData history config) config).declining) history config

/-- C2 (amended): for a history at least `alert_after_sessions` long, the
run escalates to `Alert` iff the declining count is at least 3 and some
signal's trailing-window SLOT sequence (present or absent, at least 4 slots)
splits into two halves whose present-value means both exist and differ by
more than 0.1 in the declining direction.  (The claim's reading — at least 4
PRESENT values, split into halves of the present subsequence — is refuted by
`alert_escalation_counterexample`.) -/
theorem alert_escalation_amended (history : List SignalVector) (config : Config)
    (nowIso : String) (hlen : config.alert_after_sessions ≤ history.length) :
    (run history config nowIso).alert_level = .Alert ↔
      3 ≤ (run history config nowIso).declining_count ∧
        sustainedPropOver history config := by
  have h := (finalAlertLevel_iff
    ((processSignals (windowData history config) config).declining) history config).2.1
  constructor
  · intro ha
    obtain ⟨h3, -, hs⟩ := h.mp ha
    exact ⟨h3, (sustainedDecline_iff _ _).mp hs⟩
  · rintro ⟨h3, hs⟩
    exact h.mpr ⟨h3, hlen, (sustainedDecline_iff _ _).mpr hs⟩

/-- C2 witness: a concrete escalating history, reached through
`alert_escalation_amended`. -/
theorem alert_escalation_witness :
    (run histSparse configAA4 "").alert_level = .Alert :=
  (alert_escalation_amended histSparse configAA4 "" (by decide)).mpr
    ⟨by decide, ⟨"vocabulary_diversity", by decide, by decide, 1, 1/2,
      by decide, by decide, by decide⟩⟩

/-- C2 counterexample: a history whose run escalates to `Alert` although no
signal has 4 present values in the trailing window — the claim, which
requires at least 4 present values, predicts no escalation here. -/
theorem alert_escalation_counterexample :
    (run histSparse configAA4 "").alert_level = .Alert ∧
    3 ≤ (run histSparse configAA4 "").declining_count ∧
    configAA4.alert_after_sessions ≤ histSparse.length ∧
    claimSustainedC2 histSparse configAA4 = false :=
  ⟨by decide, by decide, by decide, by decide⟩

/-- C10: in every analysis the improving, stable and declining counts add up
to the number of entries of the per-signal trend map. -/
theorem counts_sum_eq_map_size (history : List SignalVector) (config : Config)
    (nowIso : String) :
    (run history config nowIso).improving_count +
      (run history config nowIso).stable_count +
      (run history config nowIso).declining_count =
      (run history config nowIso).signals.length :=
  counts_foldl (windowData history config) config signalNames
    ⟨[], 0, 0, 0, [], none⟩ (by decide) (fun _ _ => rfl) rfl

/-! ## Per-signal entry characterizations (claims C4, C5, C7) -/

theorem meanOpt_all_none {l : List (Option ℚ)} (hl : ∀ v ∈ l, v = none) :
    meanOpt l = none := by
  have h0 : l.filterMap id = [] :=
    List.filterMap_eq_nil_iff.mpr (fun a ha => hl a ha)
  unfold meanOpt
  rw [h0]
  rfl

theorem trendDelta_none_left (config : Config) (name : String)
    (bm : Option ℚ) : trendDelta config name none bm = (.Stable, 0) := rfl

theorem trendDelta_same (config : Config) (name : String) (r : ℚ)
    (hdec : (effThreshold config name).decline ≤ 0)
    (himp : 0 ≤ (effThreshold config name).improve) :
    trendDelta config name (some r) (some r) = (.Stable, 0) := by
  unfold effThreshold at hdec himp
  unfold trendDelta
  simp only [sub_self]
  rw [if_neg (not_lt.mpr hdec), if_neg (not_lt.mpr himp)]

theorem signalEntry_all_none (data : List SignalVector) (config : Config)
    (name : String) (h : ∀ sv ∈ data, getSignal sv name = none) :
    signalEntry data config name =
      if 3 ≤ data.length then some ⟨none, .Stable, 0⟩ else none := by
  have hvals : ∀ v ∈ data.map (fun sv => getSignal sv name), v = none := by
    intro v hv
    obtain ⟨sv, hsv, rfl⟩ := List.mem_map.mp hv
    exact h sv hsv
  have hcur : (data.map (fun sv => getSignal sv name)).getLast?.bind id = none := by
    cases hL : (data.map (fun sv => getSignal sv name)).getLast? with
    | none => rfl
    | some a =>
      have := hvals a (List.mem_of_getLast?_eq_some hL)
      simp [this]
  unfold signalEntry
  by_cases hlen : (data.map (fun sv => getSignal sv name)).length < 3
  · rw [if_pos hlen, hcur]
    have : ¬ 3 ≤ data.length := by
      simp only [List.length_map] at hlen
      omega
    simp [this]
  · rw [if_neg hlen]
    have hrm : meanOpt ((data.map (fun sv => getSignal sv name)).drop
        ((data.map (fun sv => getSignal sv name)).length - 3)) = none :=
      meanOpt_all_none (fun v hv => hvals v (List.mem_of_mem_drop hv))
    have h3 : 3 ≤ data.length := by
      simp only [List.length_map] at hlen
      omega
    simp only [hcur, hrm, trendDelta_none_left]
    rw [if_pos h3]

/-- C4 (amended): a signal absent in every snapshot of the analysis window
contributes no map entry only when the window holds fewer than 3 snapshots;
with 3 or more windowed snapshots it DOES receive an entry — a Stable one
with absent current value and delta 0. -/
theorem all_absent_entry (history : List SignalVector) (config : Config)
    (nowIso name : String) (hmem : name ∈ signalNames)
    (habs : ∀ sv ∈ windowData history config, getSignal sv name = none) :
    lookupAssoc (run history config nowIso).signals name =
      if 3 ≤ (windowData history config).length then some ⟨none, .Stable, 0⟩
      else none := by
  rw [lookupAssoc_run history config nowIso name hmem,
    signalEntry_all_none _ _ _ habs]

/-- C4 witness: three all-absent snapshots, through `all_absent_entry`. -/
theorem all_absent_entry_witness :
    lookupAssoc (run (List.replicate 3 blankSnap) defaultConfig "").signals
        "question_generation" =
      if 3 ≤ (windowData (List.replicate 3 blankSnap) defaultConfig).length then
        some ⟨none, .Stable, 0⟩
      else none :=
  all_absent_entry _ _ "" _ (by decide) (by decide)

/-- C4 counterexample: over a window of three snapshots in which
`question_generation` is absent everywhere, the run's map nevertheless
contains an entry for it (a Stable default), contradicting the claim that an
all-absent signal contributes no entry. -/
theorem all_absent_entry_counterexample :
    ((windowData (List.replicate 3 blankSnap) defaultConfig).all
      (fun sv => getSignal sv "question_generation" == none)) = true ∧
    lookupAssoc (run (List.replicate 3 blankSnap) defaultConfig "").signals
        "question_generation" = some ⟨none, .Stable, 0⟩ :=
  ⟨by decide, by decide⟩

/-- C5 (amended): when the analysis window holds fewer than 3 SNAPSHOTS, a
signal is entered as Stable with delta 0 exactly when it has a present
current value, and contributes nothing otherwise.  (The claim's reading —
fewer than 3 PRESENT values — is refuted by
`short_window_entry_counterexample`.) -/
theorem short_window_entry (history : List SignalVector) (config : Config)
    (nowIso name : String) (hmem : name ∈ signalNames)
    (hshort : (windowData history config).length < 3) :
    lookupAssoc (run history config nowIso).signals name =
      (currentValue (windowData history config) name).map
        (fun c => ⟨some c, .Stable, 0⟩) := by
  rw [lookupAssoc_run history config nowIso name hmem]
  unfold signalEntry currentValue
  rw [if_pos (by simpa using hshort)]
  cases ((windowData history config).map (fun sv => getSignal sv name)).getLast?.bind id <;>
    rfl

/-- C5 witness: a single fully-present snapshot, through
`short_window_entry`. -/
theorem short_window_entry_witness :
    lookupAssoc (run histSingle defaultConfig "").signals "vocabulary_diversity" =
      (currentValue (windowData histSingle defaultConfig) "vocabulary_diversity").map
        (fun c => ⟨some c, .Stable, 0⟩) :=
  short_window_entry _ _ "" _ (by decide) (by decide)

/-- C5 counterexample: a 4-snapshot window in which `vocabulary_diversity`
has only 2 present values (fewer than 3) and a present current value, yet is
classified Declining with delta −1/2 — not Stable with delta 0 as the claim
states. -/
theorem short_window_entry_counterexample :
    (((windowData histVdSparse defaultConfig).map
      (fun sv => getSignal sv "vocabulary_diversity")).filterMap id).length = 2 ∧
    currentValue (windowData histVdSparse defaultConfig) "vocabulary_diversity" =
      some (1/2) ∧
    lookupAssoc (run histVdSparse defaultConfig "").signals "vocabulary_diversity" =
      some ⟨some (1/2), .Declining, -(1/2)⟩ :=
  ⟨by decide, by decide, by decide⟩

/-- C7 (amended): a signal whose window holds exactly 3 snapshots (so its
baseline sub-window is empty) always gets delta 0, and is classified Stable
provided its effective decline threshold is ≤ 0 and its improve threshold is
≥ 0 (true of the shipped defaults; a positive decline threshold makes the
code classify the zero delta as Declining, see
`empty_baseline_counterexample`). -/
theorem empty_baseline_stable (history : List SignalVector) (config : Config)
    (nowIso name : String) (hmem : name ∈ signalNames)
    (hlen3 : (windowData history config).length = 3)
    (hdec : (effThreshold config name).decline ≤ 0)
    (himp : 0 ≤ (effThreshold config name).improve) :
    lookupAssoc (run history config nowIso).signals name =
      some ⟨currentValue (windowData history config) name, .Stable, 0⟩ := by
  rw [lookupAssoc_run history config nowIso name hmem]
  unfold signalEntry currentValue
  have hmaplen :
      ((windowData history config).map (fun sv => getSignal sv name)).length = 3 := by
    simp [hlen3]
  rw [if_neg (by rw [hmaplen]; omega)]
  rw [hmaplen]
  simp only [Nat.sub_self, List.drop_zero, List.take_zero, if_true]
  cases hrm : meanOpt ((windowData history config).map (fun sv => getSignal sv name)) with
  | none => rw [trendDelta_none_left]
  | some r => rw [trendDelta_same config name r hdec himp]

/-- C7 witness: three constant snapshots under the default thresholds,
through `empty_baseline_stable`. -/
theorem empty_baseline_witness :
    lookupAssoc (run histConstVd defaultConfig "").signals "vocabulary_diversity" =
      some ⟨currentValue (windowData histConstVd defaultConfig) "vocabulary_diversity",
        .Stable, 0⟩ :=
  empty_baseline_stable _ _ "" _ (by decide) (by decide) (by decide) (by decide)

/-- C7 counterexample: with a configuration whose `vocabulary_diversity`
decline threshold is positive, an empty-baseline signal gets delta 0 but is
classified Declining — the claim promises Stable for every configuration. -/
theorem empty_baseline_counterexample :
    (windowData histConstVd configPosDecline).length = 3 ∧
    lookupAssoc (run histConstVd configPosDecline "").signals "vocabulary_diversity" =
      some ⟨some (1/2), .Declining, 0⟩ :=
  ⟨by decide, by decide⟩

/-! ## Sparkline lemmas (claim C3) -/

theorem foldl_min_all_eq {c : ℚ} :
    ∀ (xs : List ℚ) (a : ℚ), (∀ x ∈ xs, x = c) → a = c → xs.foldl min a = c
  | [], _, _, ha => ha
  | x :: xs, a, h, ha => by
    have hx : x = c := h x (List.mem_cons_self x xs)
    refine foldl_min_all_eq xs (min a x)
      (fun y hy => h y (List.mem_cons_of_mem _ hy)) ?_
    rw [ha, hx, min_self]

theorem foldl_max_all_eq {c : ℚ} :
    ∀ (xs : List ℚ) (a : ℚ), (∀ x ∈ xs, x = c) → a = c → xs.foldl max a = c
  | [], _, _, ha => ha
  | x :: xs, a, h, ha => by
    have hx : x = c := h x (List.mem_cons_self x xs)
    refine foldl_max_all_eq xs (max a x)
      (fun y hy => h y (List.mem_cons_of_mem _ hy)) ?_
    rw [ha, hx, max_self]

theorem renderSpark_length (l : List ℚ) : (renderSpark l).length = l.length := by
  simp [renderSpark]

theorem renderSpark_flat {l : List ℚ} (hflat : ∀ x ∈ l, ∀ y ∈ l, x = y) :
    ∀ ch ∈ renderSpark l, ch = '▄' := by
  intro ch hch
  unfold renderSpark at hch
  rcases List.mem_map.mp hch with ⟨v, hv, rfl⟩
  cases l with
  | nil => cases hv
  | cons x xs =>
    have hall : ∀ y ∈ x :: xs, y = x :=
      fun y hy => hflat y hy x (List.mem_cons_self x xs)
    have hmn : foldMin (x :: xs) = x :=
      foldl_min_all_eq xs x (fun y hy => hall y (List.mem_cons_of_mem _ hy)) rfl
    have hmx : foldMax (x :: xs) = x :=
      foldl_max_all_eq xs x (fun y hy => hall y (List.mem_cons_of_mem _ hy)) rfl
    rw [hmn, hmx, sub_self, if_pos rfl]
    decide

/-- C3 (amended): for a non-empty series and width ≥ 1, excluding the
panicking combination (width 1 with a strictly longer series, which divides
by zero), `sparkline` returns a string of `min (series length) width`
characters — equal to the requested width exactly when the series is at
least `width` long — and a flat series maps every character to the
mid-level glyph `▄`.  (The claim's `length = width` for every input is
refuted by `sparkline_length_counterexample`.) -/
theorem sparkline_length_flat (values : List ℚ) (width : ℕ)
    (hne : values ≠ []) (hw : 1 ≤ width)
    (hok : values.length ≤ width ∨ 2 ≤ width) :
    (sparkline values width).isSome = true ∧
    ((sparkline values width).getD []).length = min values.length width ∧
    ((∀ x ∈ values, ∀ y ∈ values, x = y) →
      ((sparkline values width).getD []).all (fun ch => ch == '▄') = true) := by
  unfold sparkline
  rw [if_neg (by push_neg; exact ⟨hne, by omega⟩)]
  by_cases hlt : width < values.length
  · have h2 : 2 ≤ width := by
      rcases hok with h | h
      · omega
      · exact h
    rw [if_pos hlt, if_neg (by omega : ¬ width = 1)]
    have hsub : ∀ v ∈ (List.range width).map (fun i =>
        values.getD (i * (values.length - 1) / (width - 1)) 0), v ∈ values := by
      intro v hv
      rcases List.mem_map.mp hv with ⟨i, hi, rfl⟩
      have hiw : i < width := List.mem_range.mp hi
      have hidx : i * (values.length - 1) / (width - 1) < values.length := by
        have h1 : i ≤ width - 1 := by omega
        have hmul : i * (values.length - 1) ≤ (width - 1) * (values.length - 1) :=
          Nat.mul_le_mul_right _ h1
        have hdiv : i * (values.length - 1) / (width - 1) ≤
            (width - 1) * (values.length - 1) / (width - 1) :=
          Nat.div_le_div_right hmul
        rw [Nat.mul_div_cancel_left _ (by omega : 0 < width - 1)] at hdiv
        omega
      rw [List.getD_eq_getElem?_getD, List.getElem?_eq_getElem hidx]
      exact List.getElem_mem hidx
    refine ⟨rfl, ?_, ?_⟩
    · simp [renderSpark_length, min_eq_right (Nat.le_of_lt hlt)]
    · intro hflat
      rw [List.all_eq_true]
      intro ch hch
      have hch' : ch ∈ renderSpark ((List.range width).map (fun i =>
          values.getD (i * (values.length - 1) / (width - 1)) 0)) := by
        simpa using hch
      have := renderSpark_flat
        (fun a ha b hb => hflat a (hsub a ha) b (hsub b hb)) ch hch'
      simp [this]
  · rw [if_neg hlt]
    refine ⟨rfl, ?_, ?_⟩
    · simp [renderSpark_length, min_eq_left (Nat.le_of_not_lt hlt)]
    · intro hflat
      rw [List.all_eq_true]
      intro ch hch
      have := renderSpark_flat hflat ch (by simpa using hch)
      simp [this]

/-- C3 witness: a flat three-element series at width 3, through
`sparkline_length_flat`. -/
theorem sparkline_length_flat_witness :
    (sparkline [(5:ℚ), 5, 5] 3).isSome = true ∧
    ((sparkline [(5:ℚ), 5, 5] 3).getD []).length = min 3 3 ∧
    ((∀ x ∈ [(5:ℚ), 5, 5], ∀ y ∈ [(5:ℚ), 5, 5], x = y) →
      ((sparkline [(5:ℚ), 5, 5] 3).getD []).all (fun ch => ch == '▄') = true) :=
  sparkline_length_flat [5, 5, 5] 3 (by decide) (by decide) (Or.inl (by decide))

/-- C3 counterexample: a one-element series rendered at width 10 yields one
character, not 10 — the output length is the series length whenever the
series is shorter than the requested width. -/
theorem sparkline_length_counterexample :
    ((sparkline [(3:ℚ)] 10).getD []).length ≠ 10 ∧
    (sparkline [(3:ℚ)] 10).isSome = true :=
  ⟨by decide, by decide⟩

/-! ## Percentile-rank lemmas (claim C6) -/

theorem countP_mono_pointwise {α : Type} {p q : α → Bool} :
    ∀ l : List α, (∀ a ∈ l, p a = true → q a = true) →
      l.countP p ≤ l.countP q := by
  intro l h
  induction l with
  | nil => simp
  | cons x xs ih =>
    rw [List.countP_cons, List.countP_cons]
    have ihx := ih (fun a ha hp => h a (List.mem_cons_of_mem _ ha) hp)
    by_cases hp : p x = true
    · have hq := h x (List.mem_cons_self x xs) hp
      simp only [hp, hq, if_pos]
      omega
    · have : (if p x then 1 else 0) = 0 := by simp [hp]
      rw [this]
      have : (if q x then 1 else 0) ≥ 0 := by positivity
      omega

/-- C6 (amended): `percentile_rank` returns 50 for the empty series at every
value argument; for a fixed series it is monotone non-decreasing between two
value arguments provided no series element lies within `f64::EPSILON` of
either argument (no epsilon-ties).  Unrestricted monotonicity fails: an
element within EPSILON above the argument is counted both as "below" and as
"equal", see `percentile_rank_counterexample`. -/
theorem percentile_rank_props (values : List ℚ) (x y : ℚ) :
    percentile_rank x [] = 50 ∧
    (x ≤ y →
      values.countP (fun v => decide (|v - x| < eps)) = 0 →
      values.countP (fun v => decide (|v - y| < eps)) = 0 →
      percentile_rank x values ≤ percentile_rank y values) := by
  constructor
  · rfl
  · intro hxy hex hey
    rcases eq_or_ne values [] with rfl | hne
    · simp [percentile_rank]
    · simp only [percentile_rank]
      rw [if_neg hne, if_neg hne, hex, hey]
      simp only [Nat.cast_zero, zero_mul, add_zero]
      have hb : values.countP (fun v => decide (v < x)) ≤
          values.countP (fun v => decide (v < y)) :=
        countP_mono_pointwise values (fun a _ hp => by
          simp only [decide_eq_true_eq] at hp ⊢
          exact lt_of_lt_of_le hp hxy)
      have hlenpos : (0:ℚ) < (values.length : ℚ) := by
        exact_mod_cast List.length_pos.mpr hne
      exact mul_le_mul_of_nonneg_right
        ((div_le_div_iff_of_pos_right hlenpos).mpr (by exact_mod_cast hb))
        (by norm_num)

set_option maxRecDepth 8000 in
/-- C6 witness: the empty-series default and a tie-free monotone pair,
through `percentile_rank_props`. -/
theorem percentile_rank_props_witness :
    percentile_rank 0 [] = 50 ∧
    percentile_rank 0 [(1/2:ℚ)] ≤ percentile_rank 1 [(1/2:ℚ)] :=
  ⟨(percentile_rank_props [] 0 0).1,
    (percentile_rank_props [(1/2)] 0 1).2 (by norm_num) (by decide) (by decide)⟩

set_option maxRecDepth 8000 in
/-- C6 counterexample: on the series `[0]`, the value `EPSILON/2` is counted
both as strictly below and as epsilon-equal (rank 150), while `2·EPSILON`
has rank 100 — so the rank strictly decreases on an increasing pair of value
arguments. -/
theorem percentile_rank_counterexample :
    eps / 2 ≤ 2 * eps ∧
    percentile_rank (2 * eps) [(0:ℚ)] < percentile_rank (eps / 2) [(0:ℚ)] :=
  ⟨by decide, by decide⟩

/-! ## Open-question extractor (claim C8) -/

/-- C8 (amended): the open-question count is absent exactly for the empty
document; for a non-empty document it is present (zero is a valid count) and
equals the sub-entry count under the "Open Questions" matcher, falling back
to the looser "Open" matcher exactly when that count is ZERO — not when the
section is absent, see `question_generation_counterexample`. -/
theorem question_generation_spec (c : String) :
    (question_generation c = none ↔ c = "") ∧
    (c ≠ "" →
      question_generation c = some
        (((if 0 < count_h3_under_section c "Open Questions" then
            count_h3_under_section c "Open Questions"
          else count_h3_under_section c "Open") : ℕ) : ℚ)) := by
  constructor
  · unfold question_generation
    by_cases h : c = "" <;> simp [h]
  · intro h
    unfold question_generation
    rw [if_neg h]

/-- C8 witness: a non-empty document with no open-question structure yields
the present count 0, through `question_generation_spec`. -/
theorem question_generation_spec_witness :
    question_generation "x" = some
      (((if 0 < count_h3_under_section "x" "Open Questions" then
          count_h3_under_section "x" "Open Questions"
        else count_h3_under_section "x" "Open") : ℕ) : ℚ) :=
  (question_generation_spec "x").2 (by decide)

/-- C8 counterexample: a document whose exact "Open Questions" section is
present but empty still falls back to the looser "Open" match (here hitting
a "Reopened" section) and returns 1, while the claim, which falls back only
when the exact section is absent, predicts 0. -/
theorem question_generation_counterexample :
    hasSectionHeading openQuestionsDoc "Open Questions" = true ∧
    claimOpenQuestionCount openQuestionsDoc = 0 ∧
    question_generation openQuestionsDoc = some 1 :=
  ⟨by decide, by decide, by decide⟩

/-! ## Extractor ranges (claim C9) -/

/-- C9: whenever an extractor returns a present value, that value lies in
its documented range: `vocabulary_diversity` in `(0, 1]`,
`question_generation` a non-negative integer-valued number,
`thought_lifecycle` in `[0, 1]`, `evidence_grounding` in `[0, 1]`. -/
theorem extractor_ranges (reflections curiosity thoughts : String) :
    (∀ q, vocabulary_diversity reflections = some q → 0 < q ∧ q ≤ 1) ∧
    (∀ q, question_generation curiosity = some q → q.den = 1 ∧ 0 ≤ q) ∧
    (∀ q, thought_lifecycle thoughts = some q → 0 ≤ q ∧ q ≤ 1) ∧
    (∀ q, evidence_grounding reflections = some q → 0 ≤ q ∧ q ≤ 1) := by
  refine ⟨?_, ?_, ?_, ?_⟩
  · intro q hq
    unfold vocabulary_diversity at hq
    by_cases h : reflections = ""
    · rw [if_pos h] at hq
      cases hq
    · rw [if_neg h] at hq
      unfold distinctTokenFraction at hq
      by_cases ht : tokenizeL (extractSectionTextL reflections.toList reflectiveSections) = []
      · rw [if_pos ht] at hq
        cases hq
      · rw [if_neg ht] at hq
        injection hq with hq
        rw [← hq]
        constructor
        · apply div_pos
          · exact_mod_cast List.length_pos.mpr
              (fun hd => ht ((List.dedup_eq_nil _).mp hd))
          · exact_mod_cast List.length_pos.mpr ht
        · rw [div_le_one (by exact_mod_cast List.length_pos.mpr ht)]
          exact_mod_cast (List.dedup_sublist _).length_le
  · intro q hq
    unfold question_generation at hq
    by_cases h : curiosity = ""
    · rw [if_pos h] at hq
      cases hq
    · rw [if_neg h] at hq
      injection hq with hq
      rw [← hq]
      exact ⟨Rat.den_natCast _, Nat.cast_nonneg _⟩
  · intro q hq
    unfold thought_lifecycle at hq
    by_cases h : thoughts = ""
    · rw [if_pos h] at hq
      cases hq
    · rw [if_neg h] at hq
      by_cases h0 : count_h3_under_section thoughts "Active" +
          count_h3_under_section thoughts "Graduated" +
          count_h3_under_section thoughts "Dissolved" = 0
      · rw [if_pos h0] at hq
        cases hq
      · rw [if_neg h0] at hq
        injection hq with hq
        rw [← hq]
        constructor
        · positivity
        · rw [div_le_one (by exact_mod_cast Nat.pos_of_ne_zero h0)]
          have hle : count_h3_under_section thoughts "Graduated" +
              count_h3_under_section thoughts "Dissolved" ≤
              count_h3_under_section thoughts "Active" +
              count_h3_under_section thoughts "Graduated" +
              count_h3_under_section thoughts "Dissolved" := by omega
          exact_mod_cast hle
  · intro q hq
    unfold evidence_grounding at hq
    by_cases h : reflections = ""
    · rw [if_pos h] at hq
      cases hq
    · rw [if_neg h] at hq
      by_cases he : extractEntriesL reflections.toList reflectiveSections = []
      · rw [if_pos he] at hq
        cases hq
      · rw [if_neg he] at hq
        injection hq with hq
        rw [← hq]
        constructor
        · positivity
        · rw [div_le_one (by exact_mod_cast List.length_pos.mpr he)]
          exact_mod_cast List.countP_le_length _

/-- C9 witness: concrete documents through `extractor_ranges`:
`vocabulary_diversity` = 1, `question_generation` = 2,
`thought_lifecycle` = 1/2, `evidence_grounding` = 1/2. -/
theorem extractor_ranges_witness :
    (0 < (1:ℚ) ∧ (1:ℚ) ≤ 1) ∧ ((2:ℚ).den = 1 ∧ 0 ≤ (2:ℚ)) ∧
    (0 ≤ (1/2:ℚ) ∧ (1/2:ℚ) ≤ 1) ∧ (0 ≤ (1/2:ℚ) ∧ (1/2:ℚ) ≤ 1) := by
  obtain ⟨h1, h2, h3, h4⟩ := extractor_ranges reflDoc curDoc thoughtsDoc
  exact ⟨h1 1 (by decide), h2 2 (by decide), h3 (1/2) (by decide),
    h4 (1/2) (by decide)⟩

end VigilEcho
